import Mathlib

/-!
# LCB: update dispatch engine, filters, state store and text capture

A shallow embedding of `src/LCB/LCB.go`.

* Go pointers and nilable values (`*Message`, `*string`, interfaces, funcs, slices)
  are `Option`; a dereference of `none` is the panic `Fault.nilDeref`.
* Go maps are `GoMap`: a finite list of entries in (arbitrary) iteration order.
* `int64` fields are `Int`; the one arithmetic operation on them
  (`Update_id + 1` in `pollUpdates`) wraps explicitly through `wrapInt64`.
* One iteration of a long-running loop is one function on the bot state; a
  goroutine launch `go handler.Callback(update)` is recorded as a `Launch`.
-/

namespace LCB

/-! ## Runtime failures -/

/-- Panics of the Go runtime that the embedded code can raise. -/
inductive Fault where
  | nilDeref
  | nilMapWrite
  deriving DecidableEq, Repr

/-- Pointer dereference (or method call through an interface, or call of a
func value): a panic on nil. -/
def deref {α : Type} : Option α → Except Fault α
  | none => .error Fault.nilDeref
  | some a => .ok a

/-! ## Go maps -/

/-- A Go map, as the list of its entries in iteration order. -/
structure GoMap (κ υ : Type) where
  entries : List (κ × υ)
  deriving DecidableEq, Repr

namespace GoMap

variable {κ υ : Type} [DecidableEq κ]

/-- The map made by `make(map[K]V)`. -/
def empty : GoMap κ υ := ⟨[]⟩

/-- Entry lookup on a raw entry list (first entry with the key). -/
def lookupEntries : List (κ × υ) → κ → Option υ
  | [], _ => none
  | (k', v) :: rest, k => if k' = k then some v else lookupEntries rest k

/-- Assignment on a raw entry list: overwrite the entry, or add one. -/
def storeEntries : List (κ × υ) → κ → υ → List (κ × υ)
  | [], k, v => [(k, v)]
  | (k', v') :: rest, k, v =>
    if k' = k then (k, v) :: rest else (k', v') :: storeEntries rest k v

/-- The comma-ok read `v, ok := m[k]`: `none` when the key has no entry. -/
def lookup (m : GoMap κ υ) (k : κ) : Option υ := lookupEntries m.entries k

/-- The assignment `m[k] = v`. -/
def store (m : GoMap κ υ) (k : κ) (v : υ) : GoMap κ υ := ⟨storeEntries m.entries k v⟩

/-- The builtin `delete(m, k)`. -/
def remove (m : GoMap κ υ) (k : κ) : GoMap κ υ :=
  ⟨m.entries.filter (fun p => decide (p.1 ≠ k))⟩

/-- The keys visited by `for key := range m`. -/
def keys (m : GoMap κ υ) : List κ := m.entries.map Prod.fst

end GoMap

/-! ## Data model (`type ... struct` declarations) -/

structure From where
  ID : Int
  IsBot : Bool
  FirstName : String
  LanguageCode : String
  deriving DecidableEq, Repr

structure Dice where
  Emoji : String
  Value : Int
  deriving DecidableEq, Repr

structure reply_markup where
  Text : String
  CallbackData : String
  deriving DecidableEq, Repr

structure PhotoSize where
  File_id : String
  FileUniqueID : String
  Width : Int
  Height : Int
  FileSize : Int
  deriving DecidableEq, Repr

structure Chat where
  ID : Int
  deriving DecidableEq, Repr

structure User where
  ID : Int
  Username : String
  deriving DecidableEq, Repr

structure Message where
  Message_id : Int
  From : Option LCB.From
  Text : Option String
  Chat : Option LCB.Chat
  Photo : Option (List PhotoSize)
  Caption : String
  ReplyMarkup : Option reply_markup
  Dice : Option LCB.Dice
  deriving DecidableEq, Repr

structure CallbackQuery where
  ID : String
  From : Option User
  Message : Option LCB.Message
  Data : String
  deriving DecidableEq, Repr

structure InlineQuery where
  ID : String
  From : Option User
  Query : String
  Offset : String
  ChatType : String
  deriving DecidableEq, Repr

structure Update where
  Update_id : Int
  Message : Option LCB.Message
  CallbackQuery : Option LCB.CallbackQuery
  InlineQuery : Option LCB.InlineQuery
  deriving DecidableEq, Repr

/-- The builtin `len` on a slice; a nil slice has length 0. -/
def sliceLen {α : Type} : Option (List α) → Nat
  | none => 0
  | some xs => xs.length

/-! ## Filters -/

structure FilterText where
  Text : String
  deriving DecidableEq, Repr

structure FilterPhoto where
  deriving DecidableEq, Repr

structure FilterCallback where
  Callback : String
  deriving DecidableEq, Repr

structure FilterDice where
  Emoji : String
  Value : Int
  deriving DecidableEq, Repr

/-- Source: `func (f FilterText) Match(update Update) bool`. -/
def FilterText.Match (f : FilterText) (update : Update) : Except Fault Bool := do
  let absent ←
    if update.Message.isNone then pure true
    else do
      let message ← deref update.Message
      pure message.Text.isNone
  if absent then
    return false
  if f.Text = "" then
    return true
  let message ← deref update.Message
  let text ← deref message.Text
  return decide (text = f.Text)

/-- Source: `func (f FilterPhoto) Match(update Update) bool`. -/
def FilterPhoto.Match (_f : FilterPhoto) (update : Update) : Except Fault Bool := do
  if update.Message.isNone then
    return false
  let message ← deref update.Message
  return decide (sliceLen message.Photo > 0)

/-- Source: `func (f FilterCallback) Match(update Update) bool`. -/
def FilterCallback.Match (f : FilterCallback) (update : Update) : Except Fault Bool := do
  let absent ←
    if update.CallbackQuery.isNone then pure true
    else do
      let query ← deref update.CallbackQuery
      pure (decide (query.Data = ""))
  if absent then
    return false
  let query ← deref update.CallbackQuery
  return decide (query.Data = f.Callback)

/-- Source: `func (f FilterDice) Match(update Update) bool`. -/
def FilterDice.Match (f : FilterDice) (update : Update) : Except Fault Bool := do
  let absent ←
    if update.Message.isNone then pure true
    else do
      let message ← deref update.Message
      pure message.Dice.isNone
  if absent then
    return false
  let message ← deref update.Message
  let dice ← deref message.Dice
  if f.Value = 0 then
    return decide (dice.Emoji = f.Emoji)
  return decide (dice.Emoji = f.Emoji) && decide (dice.Value = f.Value)

/-- A value of the interface `Filter`: one of the four implementations of the
package, or any other pure implementation of `Match`. -/
inductive Filter where
  | text (f : FilterText)
  | photo (f : FilterPhoto)
  | callback (f : FilterCallback)
  | dice (f : FilterDice)
  | custom (matcher : Update → Bool)

/-- Dynamic dispatch of `Match` through the interface. -/
def Filter.Match : Filter → Update → Except Fault Bool
  | .text f, update => f.Match update
  | .photo f, update => f.Match update
  | .callback f, update => f.Match update
  | .dice f, update => f.Match update
  | .custom matcher, update => pure (matcher update)

/-! ## The bot -/

/-- Identity of a callback function value `func(update Update)`. -/
abbrev Callback := Nat

structure Handler where
  Filter : Option LCB.Filter
  Callback : Option LCB.Callback

/-- One goroutine started by `go handler.Callback(update)`. -/
structure Launch where
  Callback : LCB.Callback
  update : Update
  deriving DecidableEq, Repr

/-- The struct `Bot`, over the type `V` of non-nil values of `interface{}`.
A nil interface value is `none`, a nil map is `none`. The channel and the
mutex are not fields of the model: channel contents are the lists passed
between the loops, and each function below is one critical section. -/
structure Bot (V : Type) where
  Token : String
  handlers : List Handler
  lastUpdateId : Int
  getText : GoMap Int String
  state : Option (GoMap Int (Option (GoMap String (Option V))))

variable {V : Type}

/-- Source: `func NewBot(token string) *Bot`. -/
def NewBot (token : String) : Bot V :=
  { Token := token
    handlers := []
    lastUpdateId := 0
    getText := GoMap.empty
    state := some GoMap.empty }

/-- Source: `func (b *Bot) AddHandler(filter Filter, callback func(update Update))`. -/
def AddHandler (b : Bot V) (filter : Option Filter) (callback : Option Callback) : Bot V :=
  { b with handlers := b.handlers ++ [{ Filter := filter, Callback := callback }] }

/-! ## State store -/

/-- Source: `func (b *Bot) SetState(userID int64, key string, data interface{})`. -/
def SetState (b : Bot V) (userID : Int) (key : String) (data : Option V) :
    Except Fault (Bot V) :=
  match b.state with
  | none => .error Fault.nilMapWrite
  | some st =>
    let st1 :=
      match st.lookup userID with
      | some (some _) => st
      | _ => st.store userID (some GoMap.empty)
    match st1.lookup userID with
    | some (some inner) =>
      .ok { b with state := some (st1.store userID (some (inner.store key data))) }
    | _ => .error Fault.nilMapWrite

/-- Source: `func (b *Bot) GetState(userID int64, key string) interface{}`: the value
returned (`none` is nil) and the bot afterwards. -/
def GetState (b : Bot V) (userID : Int) (key : String) : Option V × Bot V :=
  let st := match b.state with
    | none => GoMap.empty
    | some st => st
  match st.lookup userID with
  | none => (none, { b with state := some (st.store userID (some GoMap.empty)) })
  | some inner =>
    let b1 := { b with state := some st }
    match inner with
    | none => (none, b1)
    | some bag =>
      match bag.lookup key with
      | none => (none, b1)
      | some value => (value, b1)

/-- Source: `func (b *Bot) CleanState(userID int64)`. -/
def CleanState (b : Bot V) (userID : Int) : Except Fault (Bot V) :=
  match b.state with
  | none => .error Fault.nilMapWrite
  | some st => .ok { b with state := some (st.store userID none) }

/-! ## Poller -/

/-- Two's-complement wrap of an `int64` result. -/
def wrapInt64 (x : Int) : Int := (x + 2 ^ 63) % 2 ^ 64 - 2 ^ 63

/-- The loop `for _, update := range updates` of `pollUpdates`: the bot
afterwards and the updates sent on `updatesChan`, in order. -/
def forwardBatch (b : Bot V) : List Update → Bot V × List Update
  | [] => (b, [])
  | update :: rest =>
    let b1 :=
      if b.lastUpdateId ≤ update.Update_id then
        { b with lastUpdateId := wrapInt64 (update.Update_id + 1) }
      else b
    let r := forwardBatch b1 rest
    (r.1, update :: r.2)

/-- Source: `func (b *Bot) pollUpdates()`, on the values returned by the first
calls of `getUpdates` (an error, or a batch): the bot afterwards and the
updates sent on `updatesChan`, in order. An error is logged and the loop
continues. -/
def pollUpdates (b : Bot V) : List (Except String (List Update)) → Bot V × List Update
  | [] => (b, [])
  | .error _ :: rest => pollUpdates b rest
  | .ok updates :: rest =>
    let r := forwardBatch b updates
    let r2 := pollUpdates r.1 rest
    (r2.1, r.2 ++ r2.2)

/-! ## Dispatcher -/

/-- The loop `for key, _ := range b.getText` of `processUpdates`, over the keys
still to visit: the value of `flag_stop` and the table afterwards. -/
def captureLoop (update : Update) (table : GoMap Int String) :
    List Int → Except Fault (Bool × GoMap Int String)
  | [] => pure (false, table)
  | key :: rest => do
    let message ← deref update.Message
    let sender ← deref message.From
    if key = sender.ID then
      let text ← deref message.Text
      return (true, table.store key text)
    else captureLoop update table rest

/-- The loop `for _, handler := range b.handlers` of `processUpdates`: the
goroutines launched, in launch order. -/
def launchHandlers (update : Update) : List Handler → Except Fault (List Launch)
  | [] => pure []
  | handler :: rest =>
    if handler.Filter.isNone || handler.Callback.isNone then
      launchHandlers update rest
    else do
      let filter ← deref handler.Filter
      let matched ← filter.Match update
      if matched then
        let callback ← deref handler.Callback
        let later ← launchHandlers update rest
        return { Callback := callback, update := update } :: later
      else launchHandlers update rest

/-- One iteration of `for update := range b.updatesChan` in `processUpdates`:
the bot afterwards and the goroutines launched. -/
def processUpdate (b : Bot V) (update : Update) : Except Fault (Bot V × List Launch) := do
  let textPresent ←
    if update.Message.isNone then pure false
    else do
      let message ← deref update.Message
      pure message.Text.isSome
  let captured ←
    if textPresent then captureLoop update b.getText b.getText.keys
    else pure (false, b.getText)
  let flag_stop := captured.1
  let b1 := { b with getText := captured.2 }
  if !flag_stop then
    let launched ← launchHandlers update b1.handlers
    return (b1, launched)
  else
    return (b1, [])

/-- Source: `func (b *Bot) processUpdates()`, on the finite contents of the channel. -/
def processUpdates (b : Bot V) : List Update → Except Fault (Bot V × List Launch)
  | [] => pure (b, [])
  | update :: rest => do
    let r1 ← processUpdate b update
    let r2 ← processUpdates r1.1 rest
    return (r2.1, r1.2 ++ r2.2)

/-! ## Text capture -/

/-- The zero-value read `m[k]` on a `map[int64]string`. -/
def readText (table : GoMap Int String) (userID : Int) : String :=
  match table.lookup userID with
  | none => ""
  | some text => text

/-- First critical section of `GetDataFromUser`: `b.getText[userID] = ""`. -/
def GetDataFromUser.openSlot (b : Bot V) (userID : Int) : Bot V :=
  { b with getText := b.getText.store userID "" }

/-- One iteration of the waiting loop of `GetDataFromUser`: `some data` when the
function returns in this iteration (the deferred `delete` has then run),
`none` when it unlocks and sleeps. -/
def GetDataFromUser.inspect (b : Bot V) (userID : Int) : Option String × Bot V :=
  if readText b.getText userID ≠ "" then
    (some (readText b.getText userID), { b with getText := b.getText.remove userID })
  else (none, b)

/-- Whether `handler.Filter.Match(update)` returns true. -/
def Filter.accepts (f : Filter) (update : Update) : Bool :=
  match f.Match update with
  | .ok true => true
  | _ => false

/-! ## Fetching updates -/

structure TelegramResponse where
  Ok : Bool
  Result : Option (List Update)
  deriving DecidableEq, Repr

/-- What the HTTP exchange and the decoding inside `getUpdates` come to: the
first step that fails, or the decoded response. -/
inductive Transport where
  | getError (err : String)
  | readError (err : String)
  | invalidJSON (err : String)
  | decodeError (err : String)
  | response (r : TelegramResponse)
  deriving DecidableEq, Repr

/-- How a call ends in a process where `log.Fatal` may run: `log.Fatal` and
`log.Fatalf` print and call `os.Exit(1)`, so the caller never sees a value. -/
inductive Run (α : Type) where
  | exited (code : Int)
  | returned (value : α)

/-- Source: `func (b *Bot) getUpdates(offset int64) ([]Update, error)`, on the
outcome of its HTTP exchange. `http.Get` failing, `io.ReadAll` failing,
`json.Indent` failing and `json.Unmarshal` failing each reach `log.Fatal`;
only a decoded response with `ok = false` returns an error. -/
def getUpdates (_b : Bot V) (_offset : Int) : Transport → Run (Except String (List Update))
  | .getError _ => .exited 1
  | .readError _ => .exited 1
  | .invalidJSON _ => .exited 1
  | .decodeError _ => .exited 1
  | .response r =>
    if !r.Ok then .returned (.error "Telegram API returned an error:")
    else .returned (.ok (r.Result.getD []))

/-- The loop of `pollUpdates` with `getUpdates` inside, on the outcomes of the
successive HTTP exchanges: the process exits, or the loop has consumed all the
outcomes and yields the bot and the updates sent on `updatesChan`. -/
def pollUpdatesOn (b : Bot V) : List Transport → Run (Bot V × List Update)
  | [] => .returned (b, [])
  | outcome :: rest =>
    match getUpdates b b.lastUpdateId outcome with
    | .exited code => .exited code
    | .returned (.error _) => pollUpdatesOn b rest
    | .returned (.ok updates) =>
      match pollUpdatesOn (forwardBatch b updates).1 rest with
      | .exited code => .exited code
      | .returned r => .returned (r.1, (forwardBatch b updates).2 ++ r.2)

/-! ## Text capture under a schedule -/

/-- One step of the two goroutines that share `getText`: the dispatcher handles
an update, or the waiter runs one iteration of its loop. -/
inductive Step where
  | dispatch (update : Update)
  | inspect
  deriving DecidableEq, Repr

/-- The waiting loop of `GetDataFromUser` interleaved with the dispatcher along
a schedule: `some data` when the function returns, `none` when it is still
waiting at the end of the schedule. -/
def GetDataFromUser.wait (userID : Int) (b : Bot V) :
    List Step → Except Fault (Option String × Bot V)
  | [] => pure (none, b)
  | .dispatch update :: rest => do
    let r ← processUpdate b update
    GetDataFromUser.wait userID r.1 rest
  | .inspect :: rest =>
    match (GetDataFromUser.inspect b userID).1 with
    | some data => pure (some data, (GetDataFromUser.inspect b userID).2)
    | none => GetDataFromUser.wait userID (GetDataFromUser.inspect b userID).2 rest

/-- Source: `func (b *Bot) GetDataFromUser(userID int64) string`, run against the
dispatcher along a schedule that starts once the slot has been created. -/
def GetDataFromUser (b : Bot V) (userID : Int) (schedule : List Step) :
    Except Fault (Option String × Bot V) :=
  GetDataFromUser.wait userID (GetDataFromUser.openSlot b userID) schedule

/-- The text that an update carries from the given user, if it is a chat message
with text sent by that user. -/
def textFrom (userID : Int) (update : Update) : Option String :=
  match update.Message with
  | none => none
  | some message =>
    match message.From, message.Text with
    | some sender, some text => if sender.ID = userID then some text else none
    | _, _ => none

/-- The text of the last update of the list that carries text from the user. -/
def lastTextFrom (userID : Int) : List Update → Option String
  | [] => none
  | update :: rest =>
    match lastTextFrom userID rest with
    | some text => some text
    | none => textFrom userID update

/-- An update on which the range loop of `processUpdates` dereferences no nil
pointer: it carries no text, or its `From` is present. -/
def hasSenderIfText (update : Update) : Bool :=
  match update.Message with
  | none => true
  | some message => message.Text.isNone || message.From.isSome

/-! ## Reachable bot states -/

/-- One call on the bot, or one iteration of one of its loops. -/
inductive BotOp (V : Type) where
  | addHandler (filter : Option Filter) (callback : Option Callback)
  | setState (userID : Int) (key : String) (data : Option V)
  | getState (userID : Int) (key : String)
  | cleanState (userID : Int)
  | forwardBatch (updates : List Update)
  | processUpdate (update : Update)
  | openSlot (userID : Int)
  | inspect (userID : Int)

/-- The bot after one operation. -/
def BotOp.apply (b : Bot V) : BotOp V → Except Fault (Bot V)
  | .addHandler filter callback => .ok (AddHandler b filter callback)
  | .setState userID key data => SetState b userID key data
  | .getState userID key => .ok (GetState b userID key).2
  | .cleanState userID => CleanState b userID
  | .forwardBatch updates => .ok (LCB.forwardBatch b updates).1
  | .processUpdate update =>
    match LCB.processUpdate b update with
    | .error e => .error e
    | .ok r => .ok r.1
  | .openSlot userID => .ok (GetDataFromUser.openSlot b userID)
  | .inspect userID => .ok (GetDataFromUser.inspect b userID).2

/-- The bot after a sequence of operations. -/
def runOps (b : Bot V) : List (BotOp V) → Except Fault (Bot V)
  | [] => .ok b
  | op :: rest =>
    match op.apply b with
    | .error e => .error e
    | .ok b1 => runOps b1 rest

/-- A bot state that a program obtains from `NewBot` through the operations. -/
def Reachable (b : Bot V) : Prop :=
  ∃ token ops, runOps (NewBot token) ops = .ok b

/-- The schedule made of successive rounds: in each round the dispatcher handles
the updates of the round, then the waiter inspects its slot. -/
def rounds : List (List Update) → List Step
  | [] => []
  | updates :: more => updates.map Step.dispatch ++ Step.inspect :: rounds more

/-! ## Scenario data -/

/-- A user with id 42. -/
def user42 : From := { ID := 42, IsBot := false, FirstName := "Ann", LanguageCode := "en" }

/-- A chat message from user 42 carrying the given text pointer. -/
def messageFrom42 (text : Option String) : Message :=
  { Message_id := 1, From := some user42, Text := text, Chat := some { ID := 42 },
    Photo := none, Caption := "", ReplyMarkup := none, Dice := none }

/-- An update carrying a chat message from user 42 with the given text pointer. -/
def updateFrom42 (text : Option String) : Update :=
  { Update_id := 10, Message := some (messageFrom42 text), CallbackQuery := none,
    InlineQuery := none }

/-- A bot with one wildcard text handler (callback 7) on which
`GetDataFromUser(42)` has opened its slot. -/
def waitingBot : Bot Nat :=
  GetDataFromUser.openSlot (AddHandler (NewBot "token") (some (.text ⟨""⟩)) (some 7)) 42

/-- An update carrying a callback query with an empty payload. -/
def emptyPayloadUpdate : Update :=
  { Update_id := 1, Message := none,
    CallbackQuery := some { ID := "q", From := none, Message := none, Data := "" },
    InlineQuery := none }

/-- The bot on which user 42 stored two keys and was then cleared. -/
def clearedBot : Bot Nat :=
  { Token := "token", handlers := [], lastUpdateId := 0, getText := GoMap.empty,
    state := some ⟨[(42, none)]⟩ }

/-- An update with the given sequence number and no payload. -/
def bareUpdate (id : Int) : Update :=
  { Update_id := id, Message := none, CallbackQuery := none, InlineQuery := none }

/-- A registry of three handlers: any text (callback 7), a six of the die
(callback 8), the text "hello" (callback 9). -/
def threeHandlers : List (Filter × Callback) :=
  [(Filter.text ⟨""⟩, 7), (Filter.dice ⟨"🎲", 6⟩, 8), (Filter.text ⟨"hello"⟩, 9)]

/-- A bot with the three handlers registered, on which `GetDataFromUser(43)` has
opened its slot. -/
def threeHandlerBot : Bot Nat :=
  GetDataFromUser.openSlot
    (AddHandler (AddHandler (AddHandler (NewBot "token") (some (.text ⟨""⟩)) (some 7))
      (some (.dice ⟨"🎲", 6⟩)) (some 8)) (some (.text ⟨"hello"⟩)) (some 9)) 43

/-- A chat message with text and no `From`. -/
def anonymousUpdate : Update :=
  { Update_id := 11,
    Message := some { Message_id := 2, From := none, Text := some "hi", Chat := none,
                      Photo := none, Caption := "", ReplyMarkup := none, Dice := none },
    CallbackQuery := none, InlineQuery := none }

/-- The three-handler bot on which `GetDataFromUser(42)` has opened its slot. -/
def threeHandlerBot42 : Bot Nat :=
  GetDataFromUser.openSlot
    (AddHandler (AddHandler (AddHandler (NewBot "token") (some (.text ⟨""⟩)) (some 7))
      (some (.dice ⟨"🎲", 6⟩)) (some 8)) (some (.text ⟨"hello"⟩)) (some 9)) 42

/-- The largest `int64`. -/
def maxInt64 : Int := 2 ^ 63 - 1

/-- A bot on which user 43 holds a value under "step" and user 42 a value
under "name". -/
def twoUserBot : Bot Nat :=
  { Token := "token", handlers := [], lastUpdateId := 0, getText := GoMap.empty,
    state := some ⟨[(43, some ⟨[("step", some 1)]⟩), (42, some ⟨[("name", some 2)]⟩)]⟩ }

/-- An update carrying the text "noise" from user 43. -/
def noiseFrom43 : Update :=
  { Update_id := 12,
    Message := some { Message_id := 3, From := some { user42 with ID := 43 },
                      Text := some "noise", Chat := some { ID := 43 }, Photo := none,
                      Caption := "", ReplyMarkup := none, Dice := none },
    CallbackQuery := none, InlineQuery := none }

/-! ## Go maps: read after write -/

namespace GoMap

variable {κ υ : Type} [DecidableEq κ]

theorem lookupEntries_storeEntries_self (l : List (κ × υ)) (k : κ) (v : υ) :
    lookupEntries (storeEntries l k v) k = some v := by
  induction l with
  | nil => simp [storeEntries, lookupEntries]
  | cons p rest ih =>
    rcases p with ⟨k', v'⟩
    by_cases h : k' = k
    · simp [storeEntries, lookupEntries, h]
    · simp [storeEntries, lookupEntries, h, ih]

theorem lookupEntries_storeEntries_other (l : List (κ × υ)) (k k' : κ) (v : υ)
    (h : k' ≠ k) : lookupEntries (storeEntries l k v) k' = lookupEntries l k' := by
  induction l with
  | nil => simp [storeEntries, lookupEntries, Ne.symm h]
  | cons p rest ih =>
    rcases p with ⟨k0, v0⟩
    by_cases h0 : k0 = k
    · subst h0
      simp [storeEntries, lookupEntries, Ne.symm h]
    · by_cases h1 : k0 = k'
      · subst h1
        simp [storeEntries, lookupEntries, h0]
      · simp [storeEntries, lookupEntries, h0, h1, ih]

theorem lookup_store_self (m : GoMap κ υ) (k : κ) (v : υ) :
    (m.store k v).lookup k = some v :=
  lookupEntries_storeEntries_self m.entries k v

theorem lookup_store_other (m : GoMap κ υ) (k k' : κ) (v : υ) (h : k' ≠ k) :
    (m.store k v).lookup k' = m.lookup k' :=
  lookupEntries_storeEntries_other m.entries k k' v h

theorem mem_keys_store_self (m : GoMap κ υ) (k : κ) (v : υ) : k ∈ (m.store k v).keys := by
  rcases m with ⟨l⟩
  simp only [store, keys]
  induction l with
  | nil => simp [storeEntries]
  | cons p rest ih =>
    rcases p with ⟨k', v'⟩
    by_cases h : k' = k
    · simp [storeEntries, h]
    · simp only [storeEntries, h, if_false, List.map_cons, List.mem_cons]
      exact Or.inr ih

theorem not_mem_keys_remove (m : GoMap κ υ) (k : κ) : k ∉ (m.remove k).keys := by
  simp [remove, keys]

theorem lookup_eq_none_of_not_mem_keys (m : GoMap κ υ) (k : κ) (h : k ∉ m.keys) :
    m.lookup k = none := by
  rcases m with ⟨l⟩
  simp only [lookup, keys] at *
  induction l with
  | nil => simp [lookupEntries]
  | cons p rest ih =>
    rcases p with ⟨k', v'⟩
    simp only [List.map_cons, List.mem_cons, not_or] at h
    simp [lookupEntries, Ne.symm h.1, ih h.2]

theorem lookup_remove_self (m : GoMap κ υ) (k : κ) : (m.remove k).lookup k = none :=
  lookup_eq_none_of_not_mem_keys _ _ (not_mem_keys_remove m k)

end GoMap

/-! ## Dispatcher: the two loops -/

theorem captureLoop_hit (update : Update) (message : Message) (sender : From)
    (text : String) (table : GoMap Int String) (keys : List Int)
    (hm : update.Message = some message) (ht : message.Text = some text)
    (hf : message.From = some sender) (hk : sender.ID ∈ keys) :
    captureLoop update table keys = .ok (true, table.store sender.ID text) := by
  induction keys with
  | nil => simp at hk
  | cons key rest ih =>
    by_cases h : key = sender.ID
    · simp [captureLoop, hm, ht, hf, deref, h, pure, Except.pure, bind, Except.bind]
    · have hr : sender.ID ∈ rest := by
        rcases List.mem_cons.mp hk with h1 | h1
        · exact absurd h1.symm h
        · exact h1
      simp [captureLoop, hm, hf, deref, h, ih hr, bind, Except.bind]

theorem captureLoop_miss (update : Update) (message : Message) (sender : From)
    (table : GoMap Int String) (keys : List Int)
    (hm : update.Message = some message)
    (hf : message.From = some sender) (hk : sender.ID ∉ keys) :
    captureLoop update table keys = .ok (false, table) := by
  induction keys with
  | nil => simp [captureLoop, pure, Except.pure]
  | cons key rest ih =>
    simp only [List.mem_cons, not_or] at hk
    have h : key ≠ sender.ID := fun h => hk.1 h.symm
    simp [captureLoop, hm, hf, deref, h, ih hk.2, bind, Except.bind]

/-! ## Filters: no filter of the package panics -/

theorem FilterText_Match_total (f : FilterText) (update : Update) :
    ∃ r, f.Match update = .ok r := by
  rcases update with ⟨uid, _ | message, cq, iq⟩
  · simp [FilterText.Match, pure, Except.pure, bind, Except.bind]
  · rcases hT : message.Text with _ | text
    · simp [FilterText.Match, deref, hT, pure, Except.pure, bind, Except.bind]
    · by_cases hs : f.Text = ""
      · simp [FilterText.Match, deref, hT, hs, pure, Except.pure, bind, Except.bind]
      · simp [FilterText.Match, deref, hT, hs, pure, Except.pure, bind, Except.bind]

theorem FilterPhoto_Match_total (f : FilterPhoto) (update : Update) :
    ∃ r, f.Match update = .ok r := by
  rcases update with ⟨uid, _ | message, cq, iq⟩
  · simp [FilterPhoto.Match, pure, Except.pure, bind, Except.bind]
  · simp [FilterPhoto.Match, deref, pure, Except.pure, bind, Except.bind]

theorem FilterCallback_Match_total (f : FilterCallback) (update : Update) :
    ∃ r, f.Match update = .ok r := by
  rcases update with ⟨uid, msg, _ | query, iq⟩
  · simp [FilterCallback.Match, pure, Except.pure, bind, Except.bind]
  · by_cases hd : query.Data = ""
    · simp [FilterCallback.Match, deref, hd, pure, Except.pure, bind, Except.bind]
    · simp [FilterCallback.Match, deref, hd, pure, Except.pure, bind, Except.bind]

theorem FilterDice_Match_total (f : FilterDice) (update : Update) :
    ∃ r, f.Match update = .ok r := by
  rcases update with ⟨uid, _ | message, cq, iq⟩
  · simp [FilterDice.Match, pure, Except.pure, bind, Except.bind]
  · rcases hD : message.Dice with _ | dice
    · simp [FilterDice.Match, deref, hD, pure, Except.pure, bind, Except.bind]
    · by_cases hv : f.Value = 0
      · simp [FilterDice.Match, deref, hD, hv, pure, Except.pure, bind, Except.bind]
      · simp [FilterDice.Match, deref, hD, hv, pure, Except.pure, bind, Except.bind]

theorem Filter_Match_total (f : Filter) (update : Update) :
    ∃ r, f.Match update = .ok r := by
  cases f with
  | text f => exact FilterText_Match_total f update
  | photo f => exact FilterPhoto_Match_total f update
  | callback f => exact FilterCallback_Match_total f update
  | dice f => exact FilterDice_Match_total f update
  | custom matcher => exact ⟨matcher update, rfl⟩

theorem launchHandlers_registry (update : Update) (regs : List (Filter × Callback)) :
    launchHandlers update (regs.map (fun p => { Filter := some p.1, Callback := some p.2 })) =
      .ok ((regs.filter (fun p => p.1.accepts update)).map
        (fun p => { Callback := p.2, update := update })) := by
  induction regs with
  | nil => simp [launchHandlers, pure, Except.pure]
  | cons p rest ih =>
    obtain ⟨r, hr⟩ := Filter_Match_total p.1 update
    cases r
    · simp [launchHandlers, deref, hr, ih, Filter.accepts, bind, Except.bind]
    · simp [launchHandlers, deref, hr, ih, Filter.accepts, pure, Except.pure, bind,
        Except.bind]

theorem captureLoop_untouched (b : Bot V) (update : Update)
    (hfree : update.Message = none ∨
      (∃ message, update.Message = some message ∧ message.Text = none) ∨
      b.getText.keys = [] ∨
      (∃ message sender, update.Message = some message ∧ message.From = some sender ∧
        sender.ID ∉ b.getText.keys)) :
    (if (match update.Message with
          | none => false
          | some message => message.Text.isSome) = true
      then captureLoop update b.getText b.getText.keys
      else .ok (false, b.getText)) = .ok (false, b.getText) := by
  rcases hfree with h | ⟨message, hm, ht⟩ | h | ⟨message, sender, hm, hf, hk⟩
  · simp [h]
  · simp [hm, ht]
  · split
    · simp [h, captureLoop, pure, Except.pure]
    · rfl
  · split
    · exact captureLoop_miss update message sender b.getText b.getText.keys hm hf hk
    · rfl

/-! ## Filters: characterisation of `Match` -/

/-- C4: `FilterText{Text: s}.Match(update)` returns true exactly when the update
carries a chat message with non-null text and either `s` is empty (wildcard, any
non-null text, the empty text included) or the text equals `s`. -/
theorem FilterText_Match_iff (s : String) (update : Update) :
    (FilterText.mk s).Match update = .ok true ↔
      ∃ message text, update.Message = some message ∧ message.Text = some text ∧
        (s = "" ∨ text = s) := by
  rcases update with ⟨uid, _ | message, cq, iq⟩
  · simp [FilterText.Match, pure, Except.pure, bind, Except.bind]
  · rcases hT : message.Text with _ | text
    · simp [FilterText.Match, deref, hT, pure, Except.pure, bind, Except.bind]
    · by_cases hs : s = ""
      · simp [FilterText.Match, deref, hT, hs, pure, Except.pure, bind, Except.bind]
      · simp [FilterText.Match, deref, hT, hs, pure, Except.pure, bind, Except.bind]

/-- C5: `FilterDice{Emoji: e, Value: v}.Match(update)` returns true exactly when
the update carries a chat message with a dice roll whose emoji equals `e` and,
when `v` is nonzero, whose value equals `v`; the filter for a six of the die
matches a six and does not match a three. -/
theorem FilterDice_Match_iff :
    (∀ (e : String) (v : Int) (update : Update),
      (FilterDice.mk e v).Match update = .ok true ↔
        ∃ message dice, update.Message = some message ∧ message.Dice = some dice ∧
          dice.Emoji = e ∧ (v = 0 ∨ dice.Value = v)) ∧
    (∀ (update : Update) (message : Message),
      (FilterDice.mk "🎲" 6).Match
          { update with Message := some { message with Dice := some ⟨"🎲", 6⟩ } } = .ok true ∧
      (FilterDice.mk "🎲" 6).Match
          { update with Message := some { message with Dice := some ⟨"🎲", 3⟩ } } = .ok false) := by
  refine ⟨?_, ?_⟩
  · intro e v update
    rcases update with ⟨uid, _ | message, cq, iq⟩
    · simp [FilterDice.Match, pure, Except.pure, bind, Except.bind]
    · rcases hD : message.Dice with _ | dice
      · simp [FilterDice.Match, deref, hD, pure, Except.pure, bind, Except.bind]
      · by_cases hv : v = 0
        · simp [FilterDice.Match, deref, hD, hv, pure, Except.pure, bind, Except.bind]
        · simp [FilterDice.Match, deref, hD, hv, pure, Except.pure, bind, Except.bind]
  · intro update message
    constructor <;>
      simp [FilterDice.Match, deref, pure, Except.pure, bind, Except.bind]

/-- C6 (as stated, refuted): with the configured value empty and a callback
query whose payload is the empty string, the payload equals the configured
value and yet `FilterCallback.Match` returns false. -/
theorem FilterCallback_Match_empty_payload :
    ¬ ((FilterCallback.mk "").Match emptyPayloadUpdate = .ok true ↔
        ∃ query, emptyPayloadUpdate.CallbackQuery = some query ∧ query.Data = "") := by
  simp [FilterCallback.Match, emptyPayloadUpdate, deref, pure, Except.pure, bind, Except.bind]

/-- C6 (amended): `FilterCallback{Callback: c}.Match(update)` returns true exactly
when the update carries a callback query whose payload is non-empty and equals
`c`; an empty payload never matches. -/
theorem FilterCallback_Match_iff (c : String) (update : Update) :
    (FilterCallback.mk c).Match update = .ok true ↔
      ∃ query, update.CallbackQuery = some query ∧ query.Data ≠ "" ∧ query.Data = c := by
  rcases update with ⟨uid, msg, _ | query, iq⟩
  · simp [FilterCallback.Match, pure, Except.pure, bind, Except.bind]
  · by_cases hd : query.Data = ""
    · simp [FilterCallback.Match, deref, hd, pure, Except.pure, bind, Except.bind]
    · simp [FilterCallback.Match, deref, hd, pure, Except.pure, bind, Except.bind]

/-- C7: each of the four filters returns a boolean on every update (no nil
dereference), and returns false when the sub-field it inspects is missing:
a nil `Message`, a nil `Text`, a nil or empty photo list, a nil `Dice`, a nil
`CallbackQuery`. -/
theorem filters_total_absent_no_match (ft : FilterText) (fp : FilterPhoto)
    (fc : FilterCallback) (fd : FilterDice) (update : Update) (message : Message) :
    ((∃ r, ft.Match update = .ok r) ∧ (∃ r, fp.Match update = .ok r) ∧
      (∃ r, fc.Match update = .ok r) ∧ (∃ r, fd.Match update = .ok r)) ∧
    ft.Match { update with Message := none } = .ok false ∧
    fp.Match { update with Message := none } = .ok false ∧
    fd.Match { update with Message := none } = .ok false ∧
    ft.Match { update with Message := some { message with Text := none } } = .ok false ∧
    fp.Match { update with Message := some { message with Photo := none } } = .ok false ∧
    fp.Match { update with Message := some { message with Photo := some [] } } = .ok false ∧
    fd.Match { update with Message := some { message with Dice := none } } = .ok false ∧
    fc.Match { update with CallbackQuery := none } = .ok false := by
  refine ⟨⟨FilterText_Match_total ft update, FilterPhoto_Match_total fp update,
    FilterCallback_Match_total fc update, FilterDice_Match_total fd update⟩, ?_⟩
  simp [FilterText.Match, FilterPhoto.Match, FilterCallback.Match, FilterDice.Match, deref,
    sliceLen, pure, Except.pure, bind, Except.bind]

/-! ## Dispatcher and text capture -/

/-- C3: from any bot state, after `GetDataFromUser(u)` has created its slot and
the dispatcher has processed a message from `u` with non-empty text `t`, the
next inspection of the slot makes `GetDataFromUser` return `t`, and afterwards
the text-capture table has no entry for `u`. -/
theorem capture_round_trip (b : Bot V) (u : Int) (t : String) (update : Update)
    (message : Message) (sender : From)
    (hne : t ≠ "") (hm : update.Message = some message) (ht : message.Text = some t)
    (hf : message.From = some sender) (hu : sender.ID = u) :
    ∃ b2, processUpdate (GetDataFromUser.openSlot b u) update = .ok (b2, []) ∧
      (GetDataFromUser.inspect b2 u).1 = some t ∧
      (GetDataFromUser.inspect b2 u).2.getText.lookup u = none ∧
      u ∉ (GetDataFromUser.inspect b2 u).2.getText.keys := by
  subst hu
  have hslot : sender.ID ∈ (GetDataFromUser.openSlot b sender.ID).getText.keys :=
    GoMap.mem_keys_store_self _ _ _
  have hc := captureLoop_hit update message sender t
    (GetDataFromUser.openSlot b sender.ID).getText _ hm ht hf hslot
  refine ⟨{ GetDataFromUser.openSlot b sender.ID with
    getText := (GetDataFromUser.openSlot b sender.ID).getText.store sender.ID t }, ?_, ?_, ?_, ?_⟩
  · simp [processUpdate, hm, ht, deref, hc, pure, Except.pure, bind, Except.bind]
  · simp [GetDataFromUser.inspect, readText, GoMap.lookup_store_self, hne]
  · simp [GetDataFromUser.inspect, readText, GoMap.lookup_store_self, hne,
      GoMap.lookup_remove_self]
  · simp [GetDataFromUser.inspect, readText, GoMap.lookup_store_self, hne,
      GoMap.not_mem_keys_remove]

/-- C3, at the scenario of the specification: `u = 42`, `t = "hello"`. -/
theorem capture_round_trip_witness :
    ∃ b2, processUpdate (GetDataFromUser.openSlot (NewBot "token" : Bot Nat) 42)
        (updateFrom42 (some "hello")) = .ok (b2, []) ∧
      (GetDataFromUser.inspect b2 42).1 = some "hello" ∧
      (GetDataFromUser.inspect b2 42).2.getText.lookup 42 = none ∧
      (42 : Int) ∉ (GetDataFromUser.inspect b2 42).2.getText.keys :=
  capture_round_trip (NewBot "token") 42 "hello" (updateFrom42 (some "hello"))
    (messageFrom42 (some "hello")) user42 (by decide) rfl rfl rfl rfl

/-- C2 (as stated, refuted): user 42 has a live slot and sends a message whose
text is present but empty. The update is not a message with non-empty text from
a user with a live slot, the wildcard handler matches it, and yet the dispatch
step launches nothing. -/
theorem processUpdate_empty_text_not_dispatched :
    (¬ ∃ message text sender, (updateFrom42 (some "")).Message = some message ∧
        message.Text = some text ∧ text ≠ "" ∧ message.From = some sender ∧
        sender.ID ∈ waitingBot.getText.keys) ∧
    waitingBot.handlers =
      [((Filter.text ⟨""⟩, 7) : Filter × Callback)].map
        (fun p => { Filter := some p.1, Callback := some p.2 }) ∧
    ([((Filter.text ⟨""⟩, 7) : Filter × Callback)].filter
        (fun p => p.1.accepts (updateFrom42 (some "")))).map
        (fun p => ({ Callback := p.2, update := updateFrom42 (some "") } : Launch)) =
      [{ Callback := 7, update := updateFrom42 (some "") }] ∧
    (processUpdate waitingBot (updateFrom42 (some ""))).map Prod.snd = .ok [] := by
  refine ⟨?_, rfl, ?_, ?_⟩
  · simp [updateFrom42, messageFrom42]
  · simp [Filter.accepts, Filter.Match, FilterText.Match, updateFrom42, messageFrom42, deref,
      pure, Except.pure, bind, Except.bind]
  · rfl

/-- C2 (amended): for a registry whose handlers all have a filter and a callback,
and an update that carries no text, or arrives while the capture table is empty,
or whose sender is present and has no entry in the capture table, one dispatch
step launches the callbacks of exactly the handlers whose filter matches, once
per matching registration, in registration order, and leaves the bot (the
capture table included) unchanged. -/
theorem processUpdate_fall_through (b : Bot V) (update : Update)
    (regs : List (Filter × Callback))
    (hreg : b.handlers = regs.map (fun p => { Filter := some p.1, Callback := some p.2 }))
    (hfree : update.Message = none ∨
      (∃ message, update.Message = some message ∧ message.Text = none) ∨
      b.getText.keys = [] ∨
      (∃ message sender, update.Message = some message ∧ message.From = some sender ∧
        sender.ID ∉ b.getText.keys)) :
    processUpdate b update =
      .ok (b, (regs.filter (fun p => p.1.accepts update)).map
        (fun p => { Callback := p.2, update := update })) := by
  have hc := captureLoop_untouched b update hfree
  have hl := launchHandlers_registry update regs
  rw [← hreg] at hl
  cases hM : update.Message with
  | none =>
    simp [processUpdate, hM, hl, pure, Except.pure, bind, Except.bind]
  | some message =>
    simp only [hM] at hc
    cases hT : message.Text with
    | none => simp [processUpdate, hM, hT, deref, hl, pure, Except.pure, bind, Except.bind]
    | some text =>
      simp only [hT, Option.isSome_some, if_true] at hc
      simp [processUpdate, hM, hT, deref, hc, hl, pure, Except.pure, bind, Except.bind]

/-- C2 (amended), at a concrete input: three handlers are registered, user 43
waits for text, and user 42 sends "hello": both text handlers are launched, in
registration order, and the dice handler is not. -/
theorem processUpdate_fall_through_witness :
    processUpdate threeHandlerBot (updateFrom42 (some "hello")) =
      .ok (threeHandlerBot,
        (threeHandlers.filter (fun p => p.1.accepts (updateFrom42 (some "hello")))).map
          (fun p => { Callback := p.2, update := updateFrom42 (some "hello") })) ∧
    (threeHandlers.filter (fun p => p.1.accepts (updateFrom42 (some "hello")))).map
        (fun p => ({ Callback := p.2, update := updateFrom42 (some "hello") } : Launch)) =
      [{ Callback := 7, update := updateFrom42 (some "hello") },
       { Callback := 9, update := updateFrom42 (some "hello") }] :=
  ⟨processUpdate_fall_through threeHandlerBot (updateFrom42 (some "hello")) threeHandlers rfl
    (Or.inr (Or.inr (Or.inr
      ⟨messageFrom42 (some "hello"), user42, rfl, rfl, by decide⟩))),
    by decide⟩

/-! ## State store: read after write and clear -/

theorem forwardBatch_state (b : Bot V) (updates : List Update) :
    (forwardBatch b updates).1.state = b.state := by
  induction updates generalizing b with
  | nil => rfl
  | cons update rest ih =>
    simp only [forwardBatch]
    rw [ih]
    split <;> rfl

theorem processUpdate_state (b : Bot V) (update : Update) (r : Bot V × List Launch)
    (h : processUpdate b update = .ok r) : r.1.state = b.state := by
  unfold processUpdate at h
  simp only [bind, Except.bind, pure, Except.pure] at h
  repeat' split at h
  all_goals first
    | (cases h; done)
    | (cases h; rfl)

theorem SetState_ok (b : Bot V) (st : GoMap Int (Option (GoMap String (Option V))))
    (hst : b.state = some st) (userID : Int) (key : String) (data : Option V) :
    ∃ (st1 : GoMap Int (Option (GoMap String (Option V)))) (inner : GoMap String (Option V)),
      SetState b userID key data =
        .ok { b with state := some (st1.store userID (some (inner.store key data))) } := by
  unfold SetState
  simp only [hst]
  rcases hl : st.lookup userID with _ | _ | bag
  · exact ⟨st.store userID (some GoMap.empty), GoMap.empty, by
      simp [GoMap.lookup_store_self]⟩
  · exact ⟨st.store userID (some GoMap.empty), GoMap.empty, by
      simp [GoMap.lookup_store_self]⟩
  · exact ⟨st, bag, by simp [hl]⟩

theorem GetState_state_isSome (b : Bot V) (userID : Int) (key : String) :
    (GetState b userID key).2.state.isSome = true := by
  unfold GetState
  simp only []
  split
  · rfl
  · split
    · rfl
    · split <;> rfl

theorem BotOp_apply_state_isSome (b b1 : Bot V) (op : BotOp V)
    (hb : b.state.isSome = true) (h : op.apply b = .ok b1) : b1.state.isSome = true := by
  cases op with
  | addHandler filter callback =>
    cases h; exact hb
  | setState userID key data =>
    obtain ⟨st, hst⟩ := Option.isSome_iff_exists.mp hb
    obtain ⟨st1, inner, hs⟩ := SetState_ok b st hst userID key data
    simp only [BotOp.apply, hs] at h
    cases h; rfl
  | getState userID key =>
    simp only [BotOp.apply] at h
    cases h
    exact GetState_state_isSome b userID key
  | cleanState userID =>
    obtain ⟨st, hst⟩ := Option.isSome_iff_exists.mp hb
    simp only [BotOp.apply, CleanState, hst] at h
    cases h; rfl
  | forwardBatch updates =>
    simp only [BotOp.apply] at h
    cases h
    rw [forwardBatch_state]; exact hb
  | processUpdate update =>
    simp only [BotOp.apply] at h
    split at h
    · cases h
    · rename_i r hr
      cases h
      rw [processUpdate_state b update r hr]; exact hb
  | openSlot userID =>
    cases h; exact hb
  | inspect userID =>
    simp only [BotOp.apply] at h
    cases h
    unfold GetDataFromUser.inspect
    split <;> exact hb

theorem runOps_state_isSome (ops : List (BotOp V)) (b0 b : Bot V)
    (hb : b0.state.isSome = true) (h : runOps b0 ops = .ok b) : b.state.isSome = true := by
  induction ops generalizing b0 with
  | nil =>
    cases h; exact hb
  | cons op rest ih =>
    simp only [runOps] at h
    split at h
    · cases h
    · rename_i b1 h1
      exact ih b1 (BotOp_apply_state_isSome b0 b1 op hb h1) h

theorem Reachable_state_isSome (b : Bot V) (hb : Reachable b) : b.state.isSome = true := by
  obtain ⟨token, ops, h⟩ := hb
  exact runOps_state_isSome ops (NewBot token) b rfl h

/-- C8: on every bot state reachable from `NewBot` (a state where the user was
just cleared included), for every user id, key and value, `SetState(u, k, v)`
completes and `GetState(u, k)` right after it returns `v`. -/
theorem GetState_after_SetState (b : Bot V) (hb : Reachable b) (u : Int) (k : String)
    (v : Option V) :
    ∃ b1, SetState b u k v = .ok b1 ∧ (GetState b1 u k).1 = v := by
  obtain ⟨st, hst⟩ := Option.isSome_iff_exists.mp (Reachable_state_isSome b hb)
  obtain ⟨st1, inner, hs⟩ := SetState_ok b st hst u k v
  refine ⟨_, hs, ?_⟩
  simp [GetState, GoMap.lookup_store_self]

/-- C8, at a concrete input: user 42 was just cleared, then stores 5 under "step". -/
theorem GetState_after_SetState_witness :
    ∃ b1, SetState clearedBot 42 "step" (some 5) = .ok b1 ∧
      (GetState b1 42 "step").1 = some 5 :=
  GetState_after_SetState clearedBot
    ⟨"token", [.setState 42 "step" (some 1), .setState 42 "name" none, .cleanState 42], rfl⟩
    42 "step" (some 5)

/-- C9: on every bot state reachable from `NewBot`, for every user id and key,
`CleanState(u)` completes and `GetState(u, k)` after it returns nil, whatever
had been stored for the user before. -/
theorem GetState_after_CleanState (b : Bot V) (hb : Reachable b) (u : Int) (k : String) :
    ∃ b1, CleanState b u = .ok b1 ∧ (GetState b1 u k).1 = none := by
  obtain ⟨st, hst⟩ := Option.isSome_iff_exists.mp (Reachable_state_isSome b hb)
  refine ⟨{ b with state := some (st.store u none) }, by simp [CleanState, hst], ?_⟩
  simp [GetState, GoMap.lookup_store_self]

/-- C9, at a concrete input: user 42 stored a value under "step" and is cleared. -/
theorem GetState_after_CleanState_witness :
    ∃ b1, CleanState
        ({ Token := "token", handlers := [], lastUpdateId := 0, getText := GoMap.empty,
           state := some ⟨[(42, some ⟨[("step", some 1)]⟩)]⟩ } : Bot Nat) 42 = .ok b1 ∧
      (GetState b1 42 "step").1 = none :=
  GetState_after_CleanState _ ⟨"token", [.setState 42 "step" (some 1)], rfl⟩ 42 "step"

/-! ## Poller: the cursor -/

theorem wrapInt64_succ (id : Int) (hlo : -(2 ^ 63) ≤ id) (hhi : id < 2 ^ 63 - 1) :
    wrapInt64 (id + 1) = id + 1 := by
  unfold wrapInt64
  omega

theorem forwardBatch_cursor (b : Bot V) (updates : List Update)
    (hrange : ∀ u ∈ updates, -(2 ^ 63) ≤ u.Update_id ∧ u.Update_id < 2 ^ 63 - 1) :
    (forwardBatch b updates).1.lastUpdateId =
      updates.foldl (fun c u => max c (u.Update_id + 1)) b.lastUpdateId := by
  induction updates generalizing b with
  | nil => rfl
  | cons update rest ih =>
    have hu := hrange update (List.mem_cons_self _ _)
    have hrest : ∀ u ∈ rest, -(2 ^ 63) ≤ u.Update_id ∧ u.Update_id < 2 ^ 63 - 1 :=
      fun u hu => hrange u (List.mem_cons_of_mem _ hu)
    simp only [forwardBatch, List.foldl_cons]
    rw [ih _ hrest]
    congr 1
    by_cases hc : b.lastUpdateId ≤ update.Update_id
    · simp only [hc, if_true, wrapInt64_succ _ hu.1 hu.2]
      omega
    · simp only [hc, if_false]
      omega

theorem foldl_max_succ (updates : List Update) (c : Int) :
    c ≤ updates.foldl (fun c u => max c (u.Update_id + 1)) c ∧
    (∀ u ∈ updates, u.Update_id + 1 ≤ updates.foldl (fun c u => max c (u.Update_id + 1)) c) ∧
    (updates.foldl (fun c u => max c (u.Update_id + 1)) c = c ∨
      ∃ u ∈ updates, updates.foldl (fun c u => max c (u.Update_id + 1)) c = u.Update_id + 1) := by
  induction updates generalizing c with
  | nil => simp
  | cons update rest ih =>
    obtain ⟨h1, h2, h3⟩ := ih (max c (update.Update_id + 1))
    simp only [List.foldl_cons]
    refine ⟨le_trans (le_max_left _ _) h1, ?_, ?_⟩
    · intro u hu
      rcases List.mem_cons.mp hu with rfl | hu
      · exact le_trans (le_max_right _ _) h1
      · exact h2 u hu
    · rcases h3 with h3 | ⟨u, hu, h3⟩
      · rcases le_total c (update.Update_id + 1) with hle | hle
        · right
          exact ⟨update, List.mem_cons_self _ _, by rw [h3, max_eq_right hle]⟩
        · left
          rw [h3, max_eq_left hle]
      · right
        exact ⟨u, List.mem_cons_of_mem _ hu, h3⟩

theorem exists_top_update (updates : List Update) (hne : updates ≠ []) :
    ∃ top ∈ updates, ∀ u ∈ updates, u.Update_id ≤ top.Update_id := by
  induction updates with
  | nil => exact absurd rfl hne
  | cons update rest ih =>
    by_cases hr : rest = []
    · subst hr
      exact ⟨update, List.mem_cons_self _ _, by simp⟩
    · obtain ⟨top, htop, hmax⟩ := ih hr
      rcases le_total update.Update_id top.Update_id with hle | hle
      · refine ⟨top, List.mem_cons_of_mem _ htop, ?_⟩
        intro u hu
        rcases List.mem_cons.mp hu with rfl | hu
        · exact hle
        · exact hmax u hu
      · refine ⟨update, List.mem_cons_self _ _, ?_⟩
        intro u hu
        rcases List.mem_cons.mp hu with rfl | hu
        · exact le_refl _
        · exact le_trans (hmax u hu) hle

theorem pollUpdates_one_batch (b : Bot V) (updates : List Update) :
    (pollUpdates b [.ok updates]).1 = (forwardBatch b updates).1 := rfl

/-- C10 (as stated, refuted): the poller has handled a batch holding update 99, so
its cursor is 100; it then handles the non-empty batch holding only update 5,
and the cursor is still 100, not 5 + 1. -/
theorem pollUpdates_cursor_not_max_succ :
    (pollUpdates (NewBot "token" : Bot Nat) [.ok [bareUpdate 99]]).1.lastUpdateId = 100 ∧
    (pollUpdates (pollUpdates (NewBot "token" : Bot Nat) [.ok [bareUpdate 99]]).1
      [.ok [bareUpdate 5]]).1.lastUpdateId = 100 ∧
    (pollUpdates (pollUpdates (NewBot "token" : Bot Nat) [.ok [bareUpdate 99]]).1
      [.ok [bareUpdate 5]]).1.lastUpdateId ≠ (bareUpdate 5).Update_id + 1 := by
  decide

/-- C10 (amended): for every non-empty batch whose `Update_id`s lie below the
largest `int64`, with `top` an update of the batch carrying the maximum
`Update_id`: after `pollUpdates` has handled the batch the cursor equals
`top.Update_id + 1` when the starting cursor does not exceed that value, and is
the unchanged starting cursor when it does. -/
theorem pollUpdates_cursor_rule (b : Bot V) (updates : List Update) (hne : updates ≠ [])
    (hrange : ∀ u ∈ updates, -(2 ^ 63) ≤ u.Update_id ∧ u.Update_id < 2 ^ 63 - 1) :
    ∃ top ∈ updates, (∀ u ∈ updates, u.Update_id ≤ top.Update_id) ∧
      (b.lastUpdateId ≤ top.Update_id + 1 →
        (pollUpdates b [.ok updates]).1.lastUpdateId = top.Update_id + 1) ∧
      (top.Update_id + 1 < b.lastUpdateId →
        (pollUpdates b [.ok updates]).1.lastUpdateId = b.lastUpdateId) := by
  obtain ⟨top, htop, hmax⟩ := exists_top_update updates hne
  refine ⟨top, htop, hmax, ?_⟩
  rw [pollUpdates_one_batch, forwardBatch_cursor b updates hrange]
  obtain ⟨h1, h2, h3⟩ := foldl_max_succ updates b.lastUpdateId
  have h4 := h2 top htop
  rcases h3 with h3 | ⟨u, hu, h3⟩
  · constructor <;> intro h <;> omega
  · have h5 := hmax u hu
    constructor <;> intro h <;> omega

/-- C10 (amended), at a concrete input: a fresh bot handles the batch 5, 9, 7 and
its cursor becomes 10. -/
theorem pollUpdates_cursor_rule_witness :
    (∃ top ∈ [bareUpdate 5, bareUpdate 9, bareUpdate 7],
      (∀ u ∈ [bareUpdate 5, bareUpdate 9, bareUpdate 7], u.Update_id ≤ top.Update_id) ∧
      ((NewBot "token" : Bot Nat).lastUpdateId ≤ top.Update_id + 1 →
        (pollUpdates (NewBot "token" : Bot Nat)
          [.ok [bareUpdate 5, bareUpdate 9, bareUpdate 7]]).1.lastUpdateId =
            top.Update_id + 1) ∧
      (top.Update_id + 1 < (NewBot "token" : Bot Nat).lastUpdateId →
        (pollUpdates (NewBot "token" : Bot Nat)
          [.ok [bareUpdate 5, bareUpdate 9, bareUpdate 7]]).1.lastUpdateId =
            (NewBot "token" : Bot Nat).lastUpdateId)) ∧
    (pollUpdates (NewBot "token" : Bot Nat)
      [.ok [bareUpdate 5, bareUpdate 9, bareUpdate 7]]).1.lastUpdateId = 10 :=
  ⟨pollUpdates_cursor_rule (NewBot "token") [bareUpdate 5, bareUpdate 9, bareUpdate 7]
    (by decide) (by decide), by decide⟩

/-- C15 (as stated, refuted): a fresh bot, cursor 0, handles a batch holding one
update whose `Update_id` is the largest `int64`; `Update_id + 1` wraps, and the
cursor afterwards is the smallest `int64`: below the starting cursor and below
the `Update_id` of the batch. -/
theorem pollUpdates_cursor_wraps :
    (pollUpdates (NewBot "token" : Bot Nat) [.ok [bareUpdate maxInt64]]).1.lastUpdateId =
      -(2 ^ 63) ∧
    ¬ ((NewBot "token" : Bot Nat).lastUpdateId ≤
      (pollUpdates (NewBot "token" : Bot Nat) [.ok [bareUpdate maxInt64]]).1.lastUpdateId) ∧
    ¬ ((bareUpdate maxInt64).Update_id <
      (pollUpdates (NewBot "token" : Bot Nat) [.ok [bareUpdate maxInt64]]).1.lastUpdateId) := by
  decide

/-- C15 (amended): for every starting cursor and every batch, empty or not and in
any order, whose `Update_id`s are `int64` values below the largest one: after
`pollUpdates` has handled the batch the cursor is at least the starting cursor,
is strictly greater than every `Update_id` of the batch, is the starting cursor
when the batch is empty, and otherwise is the maximum of the starting cursor and
the largest `Update_id` of the batch plus one. -/
theorem pollUpdates_cursor_invariant (b : Bot V) (updates : List Update)
    (hrange : ∀ u ∈ updates, -(2 ^ 63) ≤ u.Update_id ∧ u.Update_id < 2 ^ 63 - 1) :
    b.lastUpdateId ≤ (pollUpdates b [.ok updates]).1.lastUpdateId ∧
    (∀ u ∈ updates, u.Update_id < (pollUpdates b [.ok updates]).1.lastUpdateId) ∧
    (pollUpdates b [.ok ([] : List Update)]).1.lastUpdateId = b.lastUpdateId ∧
    (∀ top ∈ updates, (∀ u ∈ updates, u.Update_id ≤ top.Update_id) →
      (pollUpdates b [.ok updates]).1.lastUpdateId = max b.lastUpdateId (top.Update_id + 1)) := by
  rw [pollUpdates_one_batch, forwardBatch_cursor b updates hrange]
  obtain ⟨h1, h2, h3⟩ := foldl_max_succ updates b.lastUpdateId
  refine ⟨h1, ?_, rfl, ?_⟩
  · intro u hu
    have := h2 u hu
    omega
  · intro top htop hmax
    have h4 := h2 top htop
    rcases h3 with h3 | ⟨u, hu, h3⟩
    · rw [h3]; omega
    · have h5 := hmax u hu
      rw [h3] at h1 h4 ⊢
      omega

/-- C15 (amended), at a concrete input: from cursor 8 the batch 5, 9, 7 leads to
cursor 10. -/
theorem pollUpdates_cursor_invariant_witness :
    (8 : Int) ≤ (pollUpdates ({ (NewBot "token" : Bot Nat) with lastUpdateId := 8 })
      [.ok [bareUpdate 5, bareUpdate 9, bareUpdate 7]]).1.lastUpdateId ∧
    (∀ u ∈ [bareUpdate 5, bareUpdate 9, bareUpdate 7],
      u.Update_id < (pollUpdates ({ (NewBot "token" : Bot Nat) with lastUpdateId := 8 })
        [.ok [bareUpdate 5, bareUpdate 9, bareUpdate 7]]).1.lastUpdateId) ∧
    (pollUpdates ({ (NewBot "token" : Bot Nat) with lastUpdateId := 8 })
      [.ok ([] : List Update)]).1.lastUpdateId = 8 ∧
    (∀ top ∈ [bareUpdate 5, bareUpdate 9, bareUpdate 7],
      (∀ u ∈ [bareUpdate 5, bareUpdate 9, bareUpdate 7], u.Update_id ≤ top.Update_id) →
      (pollUpdates ({ (NewBot "token" : Bot Nat) with lastUpdateId := 8 })
        [.ok [bareUpdate 5, bareUpdate 9, bareUpdate 7]]).1.lastUpdateId =
          max 8 (top.Update_id + 1)) :=
  pollUpdates_cursor_invariant ({ (NewBot "token" : Bot Nat) with lastUpdateId := 8 })
    [bareUpdate 5, bareUpdate 9, bareUpdate 7] (by decide)

/-! ## Poller: failures of the fetch -/

/-- C11 (failing inputs): when `http.Get` fails, when the body cannot be read,
when the body is not valid JSON and when the JSON has an unexpected shape,
`getUpdates` ends in `log.Fatal`: the process exits with status 1, and the poll
loop never reaches the batch of the next fetch. Only a decoded response with
`ok = false` comes back as an error, after which the loop continues with the bot
unchanged and nothing forwarded. -/
theorem getUpdates_failures_exit (b : Bot V) (offset : Int) (err : String)
    (result : Option (List Update)) (rest : List Transport) :
    getUpdates b offset (.getError err) = .exited 1 ∧
    getUpdates b offset (.readError err) = .exited 1 ∧
    getUpdates b offset (.invalidJSON err) = .exited 1 ∧
    getUpdates b offset (.decodeError err) = .exited 1 ∧
    pollUpdatesOn b (.getError err :: rest) = .exited 1 ∧
    pollUpdatesOn b (.readError err :: rest) = .exited 1 ∧
    pollUpdatesOn b (.invalidJSON err :: rest) = .exited 1 ∧
    pollUpdatesOn b (.decodeError err :: rest) = .exited 1 ∧
    (∃ e, getUpdates b offset (.response ⟨false, result⟩) = .returned (.error e)) ∧
    pollUpdatesOn b (.response ⟨false, result⟩ :: rest) = pollUpdatesOn b rest := by
  refine ⟨rfl, rfl, rfl, rfl, rfl, rfl, rfl, rfl, ⟨_, rfl⟩, rfl⟩

/-! ## Dispatcher: a message without sender -/

/-- C16 (failing input): user 42 waits for text and an update arrives whose
message has text and a nil `From`. The range loop of `processUpdates`
dereferences `update.Message.From` and panics; the dispatcher loop stops there,
so the update that follows is never handled. -/
theorem processUpdate_nil_From_panics :
    processUpdate waitingBot anonymousUpdate = .error Fault.nilDeref ∧
    processUpdates waitingBot [anonymousUpdate, updateFrom42 (some "hello")] =
      .error Fault.nilDeref := by
  constructor <;> rfl

/-! ## Dispatcher: empty text -/

/-- C13 (as stated, refuted): three handlers are registered, two of them text
handlers, user 42 has a live slot and sends a message whose text is present but
empty. The wildcard text filter matches the update, and yet the dispatch step
launches no callback: the update is diverted. -/
theorem processUpdate_empty_text_wildcard_not_launched :
    threeHandlerBot42.handlers =
      threeHandlers.map (fun p => { Filter := some p.1, Callback := some p.2 }) ∧
    (Filter.text ⟨""⟩).Match (updateFrom42 (some "")) = .ok true ∧
    (42 : Int) ∈ threeHandlerBot42.getText.keys ∧
    (processUpdate threeHandlerBot42 (updateFrom42 (some ""))).map Prod.snd = .ok [] := by
  refine ⟨rfl, rfl, by decide, rfl⟩

/-- C13 (amended): for every update that is a chat message whose text is present
but empty, from a user who has an entry in `getText`, the dispatch step treats
it as it treats non-empty text: no callback is launched, whatever the registry,
the empty text is stored in the slot of the user, and the waiting
`GetDataFromUser` finds the slot empty at its next inspection and keeps
waiting. -/
theorem processUpdate_empty_text_diverted (b : Bot V) (update : Update) (message : Message)
    (sender : From)
    (hm : update.Message = some message) (ht : message.Text = some "")
    (hf : message.From = some sender) (hslot : sender.ID ∈ b.getText.keys) :
    processUpdate b update =
      .ok ({ b with getText := b.getText.store sender.ID "" }, []) ∧
    GetDataFromUser.inspect { b with getText := b.getText.store sender.ID "" } sender.ID =
      (none, { b with getText := b.getText.store sender.ID "" }) := by
  constructor
  · have hc := captureLoop_hit update message sender "" b.getText b.getText.keys hm ht hf hslot
    simp [processUpdate, hm, ht, deref, hc, pure, Except.pure, bind, Except.bind]
  · simp [GetDataFromUser.inspect, readText, GoMap.lookup_store_self]

/-- C13 (amended), at a concrete input: the three-handler bot on which user 42
waits receives an empty text from user 42. -/
theorem processUpdate_empty_text_diverted_witness :
    processUpdate threeHandlerBot42 (updateFrom42 (some "")) =
      .ok ({ threeHandlerBot42 with getText := threeHandlerBot42.getText.store 42 "" }, []) ∧
    GetDataFromUser.inspect
        { threeHandlerBot42 with getText := threeHandlerBot42.getText.store 42 "" } 42 =
      (none, { threeHandlerBot42 with getText := threeHandlerBot42.getText.store 42 "" }) :=
  processUpdate_empty_text_diverted threeHandlerBot42 (updateFrom42 (some ""))
    (messageFrom42 (some "")) user42 rfl rfl rfl (by decide)

/-! ## State store: isolation -/

theorem GetState_value (b : Bot V) (st : GoMap Int (Option (GoMap String (Option V))))
    (hst : b.state = some st) (userID : Int) (key : String) :
    (GetState b userID key).1 =
      ((st.lookup userID).join.bind (fun bag => bag.lookup key)).join := by
  unfold GetState
  simp only [hst]
  rcases st.lookup userID with _ | _ | bag
  · rfl
  · rfl
  · rcases hv : bag.lookup key with _ | value <;> simp [Option.join, hv]

theorem SetState_frame (b : Bot V) (st : GoMap Int (Option (GoMap String (Option V))))
    (hst : b.state = some st) (userID : Int) (key : String) (data : Option V) :
    ∃ (b1 : Bot V) (st1 : GoMap Int (Option (GoMap String (Option V)))),
      SetState b userID key data = .ok b1 ∧ b1.state = some st1 ∧
      (∀ other, other ≠ userID → st1.lookup other = st.lookup other) ∧
      (∀ key1, key1 ≠ key → (GetState b1 userID key1).1 = (GetState b userID key1).1) := by
  unfold SetState
  simp only [hst]
  rcases hl : st.lookup userID with _ | _ | bag
  · refine ⟨_, _, by simp [GoMap.lookup_store_self]; rfl, rfl, ?_, ?_⟩
    · intro other ho
      rw [GoMap.lookup_store_other _ _ _ _ ho, GoMap.lookup_store_other _ _ _ _ ho]
    · intro key1 hk
      rw [GetState_value _ _ rfl, GetState_value b st hst, hl, GoMap.lookup_store_self]
      simp [Option.join, GoMap.lookup_store_other _ _ _ _ hk, GoMap.lookup, GoMap.empty,
        GoMap.lookupEntries, Ne.symm hk]
  · refine ⟨_, _, by simp [GoMap.lookup_store_self]; rfl, rfl, ?_, ?_⟩
    · intro other ho
      rw [GoMap.lookup_store_other _ _ _ _ ho, GoMap.lookup_store_other _ _ _ _ ho]
    · intro key1 hk
      rw [GetState_value _ _ rfl, GetState_value b st hst, hl, GoMap.lookup_store_self]
      simp [Option.join, GoMap.lookup_store_other _ _ _ _ hk, GoMap.lookup, GoMap.empty,
        GoMap.lookupEntries, Ne.symm hk]
  · refine ⟨_, _, by simp [hl]; rfl, rfl, ?_, ?_⟩
    · intro other ho
      rw [GoMap.lookup_store_other _ _ _ _ ho]
    · intro key1 hk
      rw [GetState_value _ _ rfl, GetState_value b st hst, hl, GoMap.lookup_store_self]
      simp [Option.join, GoMap.lookup_store_other _ _ _ _ hk]

/-- C12: on every bot state reachable from `NewBot`, for all user ids `u ≠ u1`,
`SetState(u, k, v)` and `CleanState(u)` complete and leave the result of
`GetState(u1, k1)` unchanged for every key `k1`; and `SetState(u, k, v)` leaves
the result of `GetState(u, k2)` unchanged for every key `k2 ≠ k`. -/
theorem state_store_isolation (b : Bot V) (hb : Reachable b) (u u1 : Int)
    (k k1 k2 : String) (v : Option V) (hu : u ≠ u1) (hk : k2 ≠ k) :
    (∃ b1, SetState b u k v = .ok b1 ∧
      (GetState b1 u1 k1).1 = (GetState b u1 k1).1 ∧
      (GetState b1 u k2).1 = (GetState b u k2).1) ∧
    (∃ b2, CleanState b u = .ok b2 ∧ (GetState b2 u1 k1).1 = (GetState b u1 k1).1) := by
  obtain ⟨st, hst⟩ := Option.isSome_iff_exists.mp (Reachable_state_isSome b hb)
  obtain ⟨b1, st1, hs, hst1, hother, hkeys⟩ := SetState_frame b st hst u k v
  refine ⟨⟨b1, hs, ?_, hkeys k2 hk⟩, ⟨{ b with state := some (st.store u none) }, ?_, ?_⟩⟩
  · rw [GetState_value b1 st1 hst1, GetState_value b st hst, hother u1 (Ne.symm hu)]
  · simp [CleanState, hst]
  · rw [GetState_value _ _ rfl, GetState_value b st hst,
      GoMap.lookup_store_other _ _ _ _ (Ne.symm hu)]

/-- C12, at a concrete input: user 43 holds a value under "step" and user 42 a
value under "name"; user 42 then stores under "step" or is cleared. -/
theorem state_store_isolation_witness :
    (∃ b1, SetState twoUserBot 42 "step" (some 5) = .ok b1 ∧
      (GetState b1 43 "step").1 = (GetState twoUserBot 43 "step").1 ∧
      (GetState b1 42 "name").1 = (GetState twoUserBot 42 "name").1) ∧
    (∃ b2, CleanState twoUserBot 42 = .ok b2 ∧
      (GetState b2 43 "step").1 = (GetState twoUserBot 43 "step").1) :=
  state_store_isolation twoUserBot
    ⟨"token", [.setState 43 "step" (some 1), .setState 42 "name" (some 2)], rfl⟩
    42 43 "step" "step" "name" (some 5) (by decide) (by decide)

/-! ## Text capture under a schedule: the last text wins -/

theorem launchHandlers_total (update : Update) (handlers : List Handler) :
    ∃ launched, launchHandlers update handlers = .ok launched := by
  induction handlers with
  | nil => exact ⟨[], rfl⟩
  | cons handler rest ih =>
    obtain ⟨later, hl⟩ := ih
    rcases handler with ⟨_ | filter, _ | callback⟩
    · exact ⟨later, by simp [launchHandlers, hl]⟩
    · exact ⟨later, by simp [launchHandlers, hl]⟩
    · exact ⟨later, by simp [launchHandlers, hl]⟩
    · obtain ⟨r, hr⟩ := Filter_Match_total filter update
      cases r
      · exact ⟨later, by simp [launchHandlers, deref, hr, hl, bind, Except.bind]⟩
      · exact ⟨{ Callback := callback, update := update } :: later, by
          simp [launchHandlers, deref, hr, hl, pure, Except.pure, bind, Except.bind]⟩

theorem mem_keys_store_of_mem {κ υ : Type} [DecidableEq κ] (m : GoMap κ υ) (k k1 : κ) (v : υ)
    (h : k1 ∈ m.keys) : k1 ∈ (m.store k v).keys := by
  rcases m with ⟨l⟩
  simp only [GoMap.store, GoMap.keys] at *
  induction l with
  | nil => simp at h
  | cons p rest ih =>
    rcases p with ⟨k0, v0⟩
    by_cases h0 : k0 = k
    · subst h0
      simpa [GoMap.storeEntries] using h
    · simp only [GoMap.storeEntries, h0, if_false, List.map_cons, List.mem_cons] at h ⊢
      rcases h with h | h
      · exact Or.inl h
      · exact Or.inr (ih h)

theorem processUpdate_slot (b : Bot V) (update : Update) (u : Int)
    (hu : u ∈ b.getText.keys) (hs : hasSenderIfText update = true) :
    ∃ b1 launched, processUpdate b update = .ok (b1, launched) ∧ u ∈ b1.getText.keys ∧
      readText b1.getText u = (textFrom u update).getD (readText b.getText u) := by
  obtain ⟨launched, hl⟩ := launchHandlers_total update b.handlers
  rcases hM : update.Message with _ | message
  · exact ⟨_, launched, by
      simp [processUpdate, hM, hl, pure, Except.pure, bind, Except.bind],
      hu, by simp [textFrom, hM]⟩
  · rcases hT : message.Text with _ | text
    · refine ⟨_, launched, by
        simp [processUpdate, hM, hT, deref, hl, pure, Except.pure, bind, Except.bind],
        hu, ?_⟩
      rcases hF : message.From with _ | sender <;> simp [textFrom, hM, hT, hF]
    · rcases hF : message.From with _ | sender
      · simp [hasSenderIfText, hM, hT, hF] at hs
      · by_cases hk : sender.ID ∈ b.getText.keys
        · have hc := captureLoop_hit update message sender text b.getText b.getText.keys
            hM hT hF hk
          refine ⟨{ b with getText := b.getText.store sender.ID text }, [], by
            simp [processUpdate, hM, hT, deref, hc, pure, Except.pure, bind, Except.bind],
            mem_keys_store_of_mem _ _ _ _ hu, ?_⟩
          by_cases he : sender.ID = u
          · subst he
            simp [textFrom, hM, hT, hF, readText, GoMap.lookup_store_self]
          · simp [textFrom, hM, hT, hF, he, readText,
              GoMap.lookup_store_other _ _ _ _ (Ne.symm he)]
        · have hc := captureLoop_miss update message sender b.getText b.getText.keys
            hM hF hk
          have he : sender.ID ≠ u := fun h => hk (h ▸ hu)
          exact ⟨_, launched, by
            simp [processUpdate, hM, hT, deref, hc, hl, pure, Except.pure, bind,
              Except.bind],
            hu, by simp [textFrom, hM, hT, hF, he]⟩

theorem wait_dispatches (u : Int) (updates : List Update) (b : Bot V)
    (hu : u ∈ b.getText.keys) (hs : ∀ d ∈ updates, hasSenderIfText d = true) :
    ∃ b1 : Bot V, u ∈ b1.getText.keys ∧
      readText b1.getText u = (lastTextFrom u updates).getD (readText b.getText u) ∧
      ∀ rest, GetDataFromUser.wait u b (updates.map Step.dispatch ++ rest) =
        GetDataFromUser.wait u b1 rest := by
  induction updates generalizing b with
  | nil => exact ⟨b, hu, rfl, fun _ => rfl⟩
  | cons d more ih =>
    obtain ⟨b1, launched, hp, hu1, hr1⟩ :=
      processUpdate_slot b d u hu (hs d (List.mem_cons_self _ _))
    obtain ⟨b2, hu2, hr2, hw⟩ := ih b1 hu1 (fun x hx => hs x (List.mem_cons_of_mem _ hx))
    refine ⟨b2, hu2, ?_, ?_⟩
    · rw [hr2, hr1]
      simp only [lastTextFrom]
      cases lastTextFrom u more <;> rfl
    · intro rest
      simp only [List.map_cons, List.cons_append, GetDataFromUser.wait, hp, bind, Except.bind]
      exact hw rest

theorem wait_inspect_empty (u : Int) (b : Bot V) (rest : List Step)
    (h : readText b.getText u = "") :
    GetDataFromUser.wait u b (Step.inspect :: rest) = GetDataFromUser.wait u b rest := by
  simp [GetDataFromUser.wait, GetDataFromUser.inspect, h]

theorem wait_inspect_filled (u : Int) (b : Bot V) (rest : List Step) (t : String)
    (h : readText b.getText u = t) (hne : t ≠ "") :
    GetDataFromUser.wait u b (Step.inspect :: rest) =
      .ok (some t, { b with getText := b.getText.remove u }) := by
  subst h
  simp [GetDataFromUser.wait, GetDataFromUser.inspect, hne, pure, Except.pure]

theorem wait_rounds (u : Int) (quiet : List (List Update)) (b : Bot V)
    (hu : u ∈ b.getText.keys) (he : readText b.getText u = "")
    (hq : ∀ ds ∈ quiet, (∀ d ∈ ds, hasSenderIfText d = true) ∧
      (lastTextFrom u ds).getD "" = "") :
    ∃ b1 : Bot V, u ∈ b1.getText.keys ∧ readText b1.getText u = "" ∧
      ∀ rest, GetDataFromUser.wait u b (rounds quiet ++ rest) =
        GetDataFromUser.wait u b1 rest := by
  induction quiet generalizing b with
  | nil => exact ⟨b, hu, he, fun _ => rfl⟩
  | cons ds more ih =>
    obtain ⟨hs, hl⟩ := hq ds (List.mem_cons_self _ _)
    obtain ⟨b1, hu1, hr1, hw1⟩ := wait_dispatches u ds b hu hs
    rw [he, hl] at hr1
    obtain ⟨b2, hu2, hr2, hw2⟩ := ih b1 hu1 hr1 (fun x hx => hq x (List.mem_cons_of_mem _ hx))
    refine ⟨b2, hu2, hr2, ?_⟩
    intro rest
    simp only [rounds, List.append_assoc, List.cons_append]
    rw [hw1, wait_inspect_empty u b1 _ hr1]
    exact hw2 rest

/-- C14 (as stated, refuted): `GetDataFromUser(42)` has created its slot, the
dispatcher processes the text "first" from user 42 and then the text "second"
from user 42 before the waiter inspects the slot: `GetDataFromUser` returns
"second", not the first message. -/
theorem GetDataFromUser_second_text_wins :
    (GetDataFromUser (NewBot "token" : Bot Nat) 42
        [.dispatch (updateFrom42 (some "first")), .dispatch (updateFrom42 (some "second")),
          .inspect]).map Prod.fst = .ok (some "second") ∧
    (GetDataFromUser (NewBot "token" : Bot Nat) 42
        [.dispatch (updateFrom42 (some "first")), .dispatch (updateFrom42 (some "second")),
          .inspect]).map Prod.fst ≠ .ok (some "first") := by
  constructor
  · rfl
  · intro h
    have h2 : (GetDataFromUser (NewBot "token" : Bot Nat) 42
        [.dispatch (updateFrom42 (some "first")), .dispatch (updateFrom42 (some "second")),
          .inspect]).map Prod.fst = .ok (some "second") := rfl
    rw [h2] at h
    simp at h

/-- C14 (amended): after `GetDataFromUser(u)` has created its slot, for every
interleaving of dispatcher steps and waiter inspections in which no update
carries text without a `From`: as long as, at each inspection, the last message
with text from `u` processed since the previous inspection is missing or has
empty text, the waiter keeps waiting; at the first inspection where that last
message has non-empty text `t`, `GetDataFromUser` returns `t` and deletes the
entry of `u`. The value is the text of the most recent message from `u`, so a
second message processed before the inspection replaces the first. -/
theorem GetDataFromUser_returns_last_text (b : Bot V) (u : Int) (quiet : List (List Update))
    (final : List Update) (rest : List Step) (t : String)
    (hq : ∀ ds ∈ quiet, (∀ d ∈ ds, hasSenderIfText d = true) ∧
      (lastTextFrom u ds).getD "" = "")
    (hs : ∀ d ∈ final, hasSenderIfText d = true)
    (hl : lastTextFrom u final = some t) (hne : t ≠ "") :
    ∃ b1 : Bot V,
      GetDataFromUser b u (rounds quiet ++ (final.map Step.dispatch ++ Step.inspect :: rest)) =
        .ok (some t, b1) ∧
      u ∉ b1.getText.keys := by
  have hu0 : u ∈ (GetDataFromUser.openSlot b u).getText.keys := GoMap.mem_keys_store_self _ _ _
  have he0 : readText (GetDataFromUser.openSlot b u).getText u = "" := by
    simp [GetDataFromUser.openSlot, readText, GoMap.lookup_store_self]
  obtain ⟨b1, hu1, he1, hw1⟩ := wait_rounds u quiet _ hu0 he0 hq
  obtain ⟨b2, hu2, hr2, hw2⟩ := wait_dispatches u final b1 hu1 hs
  rw [hl] at hr2
  refine ⟨{ b2 with getText := b2.getText.remove u }, ?_, GoMap.not_mem_keys_remove _ _⟩
  unfold GetDataFromUser
  rw [hw1, hw2]
  exact wait_inspect_filled u b2 rest t hr2 hne

/-- C14 (amended), at a concrete input: the waiter for user 42 inspects an empty
slot, user 43 sends "noise" and the waiter inspects again, then user 42 sends
"first" and "second" before the next inspection, which returns "second". -/
theorem GetDataFromUser_returns_last_text_witness :
    ∃ b1 : Bot Nat,
      GetDataFromUser (NewBot "token") 42
        (rounds [[], [noiseFrom43]] ++
          ([updateFrom42 (some "first"), updateFrom42 (some "second")].map Step.dispatch ++
            Step.inspect :: [])) = .ok (some "second", b1) ∧
      (42 : Int) ∉ b1.getText.keys :=
  GetDataFromUser_returns_last_text (NewBot "token") 42 [[], [noiseFrom43]]
    [updateFrom42 (some "first"), updateFrom42 (some "second")] [] "second"
    (by decide) (by decide) rfl (by decide)

/-! ## Dispatcher: diversion to the pending waiter -/

end LCB
